import Mathlib

/-!
Verification development for the `SemanticsRepository` engine
(`src/ethtx/providers/semantic_providers/repository.py`).

The repository class resolves, caches and enriches address "semantics":
per (chain_id, address) it tries durable storage, then chain introspection
plus the external ABI registry (Etherscan), then heuristic token guessing,
memoizes the result (`lru_cache`), registers discovered function signatures
in a global signature registry, and applies an amendment transform to the
contract semantics before returning.

External collaborators (database adapter, web3 provider, Etherscan client,
ENS provider, ABI decoder, amendment router, canonical ERC20/ERC721
signature sets, the pydantic model defaults) are not part of the reviewed
source file; they are modelled as oracle fields of an `Env` structure, and
where a claim depends on their behaviour the modelling follows the
specification's description of their interface.
-/

namespace EthTx

/-- `ParameterSemantics` from the semantics model: name, declared type,
nested `components` for tuple/struct types, `indexed`/`dynamic` flags.
Recursive, so an inductive rather than a structure. -/
inductive ParameterSemantics where
  | mk (parameter_name : String) (parameter_type : String)
       (components : List ParameterSemantics) (indexed : Bool) (dynamic : Bool)
deriving Repr

def ParameterSemantics.parameter_name : ParameterSemantics → String
  | .mk n _ _ _ _ => n

def ParameterSemantics.parameter_type : ParameterSemantics → String
  | .mk _ t _ _ _ => t

def ParameterSemantics.components : ParameterSemantics → List ParameterSemantics
  | .mk _ _ c _ _ => c

/-- `EventSemantics`: topic signature, anonymity flag, name, parameters. -/
structure EventSemantics where
  signature : String
  anonymous : Bool
  name : String
  parameters : List ParameterSemantics
deriving Repr

/-- `FunctionSemantics`: selector signature, name, inputs and outputs. -/
structure FunctionSemantics where
  signature : String
  name : String
  inputs : List ParameterSemantics
  outputs : List ParameterSemantics
deriving Repr

/-- `ERC20Semantics`: the minimal token descriptor. -/
structure ERC20Semantics where
  name : String
  symbol : String
  decimals : Int
deriving Repr

/-- `TransformationSemantics`: per-parameter decoding override. The three
fields are carried through the repository unchanged, so they are modelled
as plain strings. -/
structure TransformationSemantics where
  transformed_name : String
  transformed_type : String
  transformation : String
deriving Repr

/-- `ContractSemantics`: code-hash identity, name, and the per-signature
event / function / transformation maps (Python dicts, modelled as
association lists in insertion order). Pydantic defaults give empty maps
when omitted, as in `ContractSemantics(code_hash=..., name="EOA")`. -/
structure ContractSemantics where
  code_hash : String
  name : String
  events : List (String × EventSemantics) := []
  functions : List (String × FunctionSemantics) := []
  transformations : List (String × List (String × TransformationSemantics)) := []
deriving Repr

/-- `AddressSemantics`: the canonical resolved record for one
(chain, address). `standard` and `erc20` default to absent. -/
structure AddressSemantics where
  chain_id : String
  address : String
  name : String
  is_contract : Bool
  contract : ContractSemantics
  standard : Option String := none
  erc20 : Option ERC20Semantics := none
deriving Repr

/-- `SignatureArg`: one argument descriptor of a registry signature. -/
structure SignatureArg where
  name : String
  type : String
deriving Repr, DecidableEq

/-- Modelled from the spec: the `Signature` pydantic model is not part of
the reviewed file; per the spec a signature record carries hash, name,
ordered args, an observation `count`, a `tuple`-origin flag and a
`guessed` confidence flag, and a freshly constructed record is a guessed
one with a fresh usage count unless explicitly marked verified
(defaults `count := 1`, `tuple := false`, `guessed := true`). -/
structure Signature where
  signature_hash : String
  name : String
  args : List SignatureArg
  count : Nat := 1
  tuple : Bool := false
  guessed : Bool := true
deriving Repr

/-- Raw (dict-shaped) signature argument as stored in the database:
a dict with keys `name` and `type`, in that insertion order. -/
structure SigRecordArg where
  name : String
  type : String
deriving Repr, DecidableEq

/-- Raw signature record as returned by
`database.get_signature_semantics` and passed to
`database.insert_signature`. -/
structure SigRecord where
  signature_hash : String
  name : String
  args : List SigRecordArg
  count : Nat
  guessed : Bool
  tuple : Bool
deriving Repr, DecidableEq

/-- `Signature.dict()`: the raw record written for a model instance. -/
def Signature.toRecord (s : Signature) : SigRecord :=
  { signature_hash := s.signature_hash
    name := s.name
    args := s.args.map fun a => ⟨a.name, a.type⟩
    count := s.count
    guessed := s.guessed
    tuple := s.tuple }

/-- Raw stored parameter dict consumed by `decode_parameter`
(a missing `"components"` key behaves like an empty list). -/
inductive RawParameter where
  | mk (parameter_name : String) (parameter_type : String)
       (components : List RawParameter) (indexed : Bool) (dynamic : Bool)
deriving Repr

/-- Raw stored event dict. -/
structure RawEvent where
  anonymous : Bool
  name : String
  parameters : List RawParameter
deriving Repr

/-- Raw stored function dict. -/
structure RawFunction where
  name : String
  inputs : List RawParameter
  outputs : List RawParameter
deriving Repr

/-- Raw stored transformation dict. -/
structure RawTransformation where
  transformed_name : String
  transformed_type : String
  transformation : String
deriving Repr

/-- Raw contract record returned by `database.get_contract_semantics`. -/
structure RawContractSemantics where
  code_hash : String
  name : String
  events : List (String × RawEvent)
  functions : List (String × RawFunction)
  transformations : List (String × List (String × RawTransformation))
deriving Repr

/-- Raw ERC20 descriptor dict (as returned by the web3 guess helpers and
stored inside an address record). -/
structure RawERC20 where
  name : String
  symbol : String
  decimals : Int
deriving Repr

/-- Raw address record returned by `database.get_address_semantics`.
`name` is read with `.get("name", address)`, hence optional; the other
keys are subscripted directly and are present in every record the system
writes. -/
structure RawAddressSemantics where
  contract : String
  name : Option String
  is_contract : Bool
  standard : Option String
  erc20 : Option RawERC20
deriving Repr

/-- Raw Etherscan payload: `raw_semantics` dict with keys `"abi"` and
`"name"`; the abi payload is opaque to the repository (only handed to
`decode_events_and_functions`), so it is modelled as a string. -/
structure RawEtherscanContract where
  abi : String
  name : String
deriving Repr

/-- The `ZERO_HASH` sentinel literal from `repository.py`: the code hash
denoting an externally-owned (no-bytecode) account. -/
def ZERO_HASH : String :=
  "0xc5d2460186f7233c927e7db2dcc703c0e500b653ca82273b7bfad8045d85a470"

/-- The contract semantics built for an externally-owned account:
`ContractSemantics(code_hash=ZERO_HASH, name="EOA")` with default
(empty) maps. -/
def EOAContract : ContractSemantics :=
  { code_hash := ZERO_HASH, name := "EOA" }

/-- Python dict `.get(key)` on an association list (first binding wins;
dict keys are unique, so this is exact). -/
def lookupA {α : Type} : List (String × α) → String → Option α
  | [], _ => none
  | (k, v) :: rest, k' => if k = k' then some v else lookupA rest k'

/-- Python `key in dict` membership test. -/
def hasKey {α : Type} (m : List (String × α)) (k : String) : Bool :=
  m.any fun p => p.1 = k

/-- Removal of one key from a decoded map (used to state the
all-or-nothing classification property). -/
def eraseKey {α : Type} (m : List (String × α)) (k : String) : List (String × α) :=
  m.filter fun p => ¬ p.1 = k

/-- `decode_parameter` from `_read_stored_semantics`: recursively rebuild
a `ParameterSemantics` tree from its stored dict. -/
def decode_parameter : RawParameter → ParameterSemantics
  | .mk n t comps i d => .mk n t (decode_parameter_list comps) i d
where
  decode_parameter_list : List RawParameter → List ParameterSemantics
  | [] => []
  | p :: ps => decode_parameter p :: decode_parameter_list ps

/-- Event-map reconstruction loop of `_read_stored_semantics`. -/
def decodeEvents (evs : List (String × RawEvent)) : List (String × EventSemantics) :=
  evs.map fun p =>
    (p.1, { signature := p.1
            anonymous := p.2.anonymous
            name := p.2.name
            parameters := p.2.parameters.map decode_parameter })

/-- Function-map reconstruction loop of `_read_stored_semantics`. -/
def decodeFunctions (fns : List (String × RawFunction)) :
    List (String × FunctionSemantics) :=
  fns.map fun p =>
    (p.1, { signature := p.1
            name := p.2.name
            inputs := p.2.inputs.map decode_parameter
            outputs := p.2.outputs.map decode_parameter })

/-- Transformation-map reconstruction loop of `_read_stored_semantics`. -/
def decodeTransformations
    (ts : List (String × List (String × RawTransformation))) :
    List (String × List (String × TransformationSemantics)) :=
  ts.map fun p =>
    (p.1, p.2.map fun q =>
      (q.1, { transformed_name := q.2.transformed_name
              transformed_type := q.2.transformed_type
              transformation := q.2.transformation }))

/-- A collaborator invocation or database write performed while resolving
one address (observation log of the side effects of `get_semantics`). -/
inductive TierCall where
  | storeRead      -- database.get_address_semantics
  | contractRead   -- database.get_contract_semantics
  | codeHash       -- web3provider.get_code_hash
  | etherscanAbi   -- etherscan.contract.get_contract_abi
  | liveToken      -- web3provider.get_erc20_token
  | guessProxy     -- web3provider.guess_erc20_proxy
  | guessToken     -- web3provider.guess_erc20_token
  | ensLookup      -- ens_provider.name
  | dbWriteContract  -- database.insert_contract
  | dbWriteAddress   -- database.insert_address
  | dbWriteSignature -- database.insert_signature
deriving Repr, DecidableEq

/-- True when the log holds no remote-registry and no heuristic-tier call. -/
def registryHeuristicFree (calls : List TierCall) : Bool :=
  calls.all fun t =>
    match t with
    | .etherscanAbi => false
    | .guessProxy => false
    | .guessToken => false
    | _ => true

/-- Oracle view of every external collaborator consumed by
`SemanticsRepository`. Read oracles are pure functions (the engine never
re-reads data it wrote within one resolution), writes are logged as
`TierCall`s. -/
structure Env where
  /-- `database.get_address_semantics chain_id address` -/
  get_address_semantics : String → String → Option RawAddressSemantics
  /-- `database.get_contract_semantics code_hash` (may be absent) -/
  get_contract_semantics : String → Option RawContractSemantics
  /-- `web3provider.get_code_hash address chain_id` -/
  get_code_hash : String → String → String
  /-- `etherscan.contract.get_contract_abi chain_id address`
  returning the `(raw_semantics, decoded)` pair -/
  get_contract_abi : String → String → Option RawEtherscanContract × Bool
  /-- `decode_events_and_functions raw_abi` (external ABI decoder) -/
  decode_abi : String → List (String × EventSemantics) × List (String × FunctionSemantics)
  /-- `web3provider.guess_erc20_proxy address chain_id` -/
  guess_erc20_proxy : String → String → Option RawERC20
  /-- `web3provider.guess_erc20_token address chain_id` -/
  guess_erc20_token : String → String → Option RawERC20
  /-- `web3provider.get_erc20_token address name functions`; the Python
  call may raise, hence `Except` -/
  get_erc20_token : String → String → List (String × FunctionSemantics) → Except Unit RawERC20
  /-- `ens_provider.name (node chain_id) address` -/
  ens_name : String → String → String
  /-- `amend_contract_semantics`: the in-place amendment transform, as the
  function from the contract semantics to its amended version -/
  amend : ContractSemantics → ContractSemantics
  /-- return value of `database.insert_contract` (an id when inserted) -/
  insert_contract_id : ContractSemantics → Option String
  /-- `int(address, 16) in precompiles` membership of the static table -/
  isPrecompiled : String → Bool
  /-- Modelled from the spec: keys of the canonical `ERC20_EVENTS` set
  (the module holding it is not part of the reviewed file) -/
  erc20Events : List String
  /-- Modelled from the spec: keys of the canonical `ERC20_FUNCTIONS` set -/
  erc20Functions : List String
  /-- Modelled from the spec: keys of the canonical `ERC721_EVENTS` set -/
  erc721Events : List String
  /-- Modelled from the spec: keys of the canonical `ERC721_FUNCTIONS` set -/
  erc721Functions : List String

/-- Mutable state of one `SemanticsRepository` instance: the
`lru_cache` memo of `get_semantics` (keyed by `(chain_id, address)`,
holding the returned value, which may be `none`) and the `_records`
observation log (`None` when recording is off). The cache is modelled
without capacity eviction (entries never expire within the modelled
horizon of at most 128 distinct keys). -/
structure RepoState where
  cache : List ((String × String) × Option AddressSemantics)
  records : Option (List String)

/-- State of a freshly constructed repository: empty memo, recording off
(`self._records = None`). -/
def initState : RepoState := { cache := [], records := none }

/-- `record()`: start recording (`self._records = []`). -/
def record (st : RepoState) : RepoState := { st with records := some [] }

/-- `end_record()`: stop recording and hand back the log. -/
def end_record (st : RepoState) : RepoState × Option (List String) :=
  ({ st with records := none }, st.records)

/-- Memo lookup for the `get_semantics` `lru_cache`. -/
def lookupCache :
    List ((String × String) × Option AddressSemantics) → String × String →
    Option (Option AddressSemantics)
  | [], _ => none
  | (k, v) :: rest, k' => if k = k' then some v else lookupCache rest k'

/-- `self._records.append(address)` when recording is active. -/
def appendRecord : Option (List String) → String → Option (List String)
  | some l, a => some (l ++ [a])
  | none, _ => none

/-- `_read_stored_semantics`: reconstruct an `AddressSemantics` from the
store tier. Returns `.error ()` where the Python code would raise
(subscripting the absent contract record), paired with the collaborator
calls made. -/
def _read_stored_semantics (env : Env) (address chain_id : String) :
    Except Unit (Option AddressSemantics) × List TierCall :=
  if address = "" then (.ok none, [])
  else
    match env.get_address_semantics chain_id address with
    | none => (.ok none, [.storeRead])
    | some raw =>
      let erc20_semantics : Option ERC20Semantics :=
        raw.erc20.map fun e => ⟨e.name, e.symbol, e.decimals⟩
      if raw.contract = ZERO_HASH then
        let name0 := raw.name.getD address
        let named : String × List TierCall :=
          if name0 = address ∧ raw.is_contract = false
          then (env.ens_name chain_id address, [.ensLookup])
          else (name0, [])
        (.ok (some
          { chain_id := chain_id
            address := address
            name := named.1
            is_contract := raw.is_contract
            contract := { code_hash := raw.contract, name := "EOA" }
            standard := raw.standard
            erc20 := erc20_semantics }),
         [.storeRead] ++ named.2)
      else
        match env.get_contract_semantics raw.contract with
        | none => (.error (), [.storeRead, .contractRead])
        | some rawc =>
          let contract : ContractSemantics :=
            { code_hash := rawc.code_hash
              name := rawc.name
              events := decodeEvents rawc.events
              functions := decodeFunctions rawc.functions
              transformations := decodeTransformations rawc.transformations }
          let name0 := raw.name.getD address
          let named : String × List TierCall :=
            if name0 = address ∧ raw.is_contract = false
            then (env.ens_name chain_id address, [.ensLookup])
            else (name0, [])
          (.ok (some
            { chain_id := chain_id
              address := address
              name := named.1
              is_contract := raw.is_contract
              contract := contract
              standard := raw.standard
              erc20 := erc20_semantics }),
           [.storeRead, .contractRead] ++ named.2)

/-- `_decode_standard_semantics`: classify the decoded maps against the
canonical standards, ERC20 first, ERC721 second, first full match wins;
on ERC20 match attempt the live descriptor read and fall back to
`(name, name, 18)` on failure. Paired with the collaborator calls made. -/
def _decode_standard_semantics (env : Env) (address name : String)
    (events : List (String × EventSemantics))
    (functions : List (String × FunctionSemantics)) :
    (Option String × Option ERC20Semantics) × List TierCall :=
  if address = "" then ((none, none), [])
  else if env.erc20Events.all (fun e => hasKey events e)
       && env.erc20Functions.all (fun f => hasKey functions f) then
    match env.get_erc20_token address name functions with
    | .ok td => ((some "ERC20", some ⟨td.name, td.symbol, td.decimals⟩), [.liveToken])
    | .error _ => ((some "ERC20", some ⟨name, name, 18⟩), [.liveToken])
  else if env.erc721Events.all (fun e => hasKey events e)
       && env.erc721Functions.all (fun f => hasKey functions f) then
    ((some "ERC721", none), [])
  else
    ((none, none), [])

/-- Character-list prefix test (kernel-reducible). -/
def prefixChars : List Char → List Char → Bool
  | [], _ => true
  | _ :: _, [] => false
  | a :: as, b :: bs => a == b && prefixChars as bs

/-- Python `s.startswith(pre)` on strings. -/
def strStartsWith (s pre : String) : Bool :=
  prefixChars pre.toList s.toList

/-- First-input-tuple rule of `insert_contract_signatures`: argument
descriptors come from the nested components of the first input when it is
a tuple, else from the top-level inputs. -/
def signatureArgsOf (v : FunctionSemantics) : List SignatureArg :=
  match v.inputs with
  | p :: _ =>
    if p.parameter_type = "tuple"
    then p.components.map fun q => ⟨q.parameter_name, q.parameter_type⟩
    else v.inputs.map fun q => ⟨q.parameter_name, q.parameter_type⟩
  | [] => []

/-- `insert_contract_signatures`: scan the contract's functions in order,
skip entries whose signature is not a `0x`-prefixed selector hash, and
build the `Signature` registered for each remaining one. -/
def insert_contract_signatures :
    List (String × FunctionSemantics) → List Signature
  | [] => []
  | (_, v) :: rest =>
    if strStartsWith v.signature "0x"
    then { signature_hash := v.signature, name := v.name, args := signatureArgsOf v }
           :: insert_contract_signatures rest
    else insert_contract_signatures rest

/-- Database writes performed by `update_semantics`: insert the contract,
insert the address record, and when the contract insert returned an id,
register every discovered function signature. -/
def update_semantics_calls (env : Env) (sem : AddressSemantics) : List TierCall :=
  [.dbWriteContract, .dbWriteAddress] ++
    match env.insert_contract_id sem.contract with
    | some _ => (insert_contract_signatures sem.contract.functions).map fun _ => .dbWriteSignature
    | none => []

/-- Body of `get_semantics` on a memo miss with a non-empty address, up to
but not including the amendment: store tier, then chain introspection,
then registry / heuristic tiers, then `update_semantics` persistence for
freshly resolved records. Produces the pre-amendment record and the call
log, or `.error` where the Python body would raise. -/
def resolve_semantics (env : Env) (chain_id address : String) :
    Except Unit (AddressSemantics × List TierCall) :=
  match _read_stored_semantics env address chain_id with
  | (.error e, _) => .error e
  | (.ok (some s), calls) => .ok (s, calls)
  | (.ok none, calls0) =>
    let code_hash := env.get_code_hash address chain_id
    let built : AddressSemantics × List TierCall :=
      if code_hash = ZERO_HASH then
        -- externally owned address
        ({ chain_id := chain_id
           address := address
           name := env.ens_name chain_id address
           is_contract := false
           contract := EOAContract },
         [.ensLookup])
      else
        match env.get_contract_abi chain_id address with
        | (some raw, true) =>
          -- raw semantics received from Etherscan
          let ef := env.decode_abi raw.abi
          let std := _decode_standard_semantics env address raw.name ef.1 ef.2
          let erc20 : Option ERC20Semantics × List TierCall :=
            if std.1.1 = some "ERC20" then (std.1.2, [])
            else
              match env.guess_erc20_proxy address chain_id with
              | some p => (some ⟨p.name, p.symbol, p.decimals⟩, [.guessProxy])
              | none => (none, [.guessProxy])
          ({ chain_id := chain_id
             address := address
             name := raw.name
             is_contract := true
             contract :=
               { code_hash := code_hash
                 name := raw.name
                 events := ef.1
                 functions := ef.2
                 transformations := [] }
             standard := std.1.1
             erc20 := erc20.1 },
           [.etherscanAbi] ++ std.2 ++ erc20.2)
        | _ =>
          -- try to guess if the address is a token
          match env.guess_erc20_token address chain_id with
          | some p =>
            ({ chain_id := chain_id
               address := address
               name := address
               is_contract := true
               contract := { code_hash := code_hash, name := address }
               standard := some "ERC20"
               erc20 := some ⟨p.name, p.symbol, p.decimals⟩ },
             [.etherscanAbi, .guessToken])
          | none =>
            ({ chain_id := chain_id
               address := address
               name := address
               is_contract := true
               contract := { code_hash := code_hash, name := address } },
             [.etherscanAbi, .guessToken])
    .ok (built.1,
         calls0 ++ [.codeHash] ++ built.2 ++ update_semantics_calls env built.1)

/-- `get_semantics` with its `lru_cache`: a memo hit returns the cached
value without executing the body; a miss runs the empty-address guard,
the tiered resolution, the amendment transform, the recording append, and
memoizes the returned value. -/
def get_semantics (env : Env) (st : RepoState) (chain_id address : String) :
    Except Unit (Option AddressSemantics) × RepoState × List TierCall :=
  match lookupCache st.cache (chain_id, address) with
  | some cached => (.ok cached, st, [])
  | none =>
    if address = "" then
      (.ok none,
       { st with cache := ((chain_id, address), none) :: st.cache },
       [])
    else
      match resolve_semantics env chain_id address with
      | .error e => (.error e, st, [])
      | .ok (sem, calls) =>
        -- amend semantics with locally stored updates
        let final := { sem with contract := env.amend sem.contract }
        (.ok (some final),
         { cache := ((chain_id, address), some final) :: st.cache
           records := appendRecord st.records address },
         calls)

/-- The synthetic extra output appended by `get_constructor_abi`:
`ParameterSemantics(parameter_name="__create_output__",
parameter_type="ignore", indexed=False, dynamic=True)`. -/
def createOutputMarker : ParameterSemantics :=
  .mk "__create_output__" "ignore" [] false true

/-- `get_event_abi`: event lookup by signature on the resolved record. -/
def get_event_abi (env : Env) (st : RepoState) (chain_id address signature : String) :
    Except Unit (Option EventSemantics) × RepoState :=
  if address = "" then (.ok none, st)
  else
    let res := get_semantics env st chain_id address
    (res.1.map fun sem => sem.bind fun s => lookupA s.contract.events signature,
     res.2.1)

/-- `get_transformations`: transformation lookup by signature. -/
def get_transformations (env : Env) (st : RepoState) (chain_id address signature : String) :
    Except Unit (Option (List (String × TransformationSemantics))) × RepoState :=
  if address = "" then (.ok none, st)
  else
    let res := get_semantics env st chain_id address
    (res.1.map fun sem => sem.bind fun s => lookupA s.contract.transformations signature,
     res.2.1)

/-- `get_anonymous_event_abi`: a result only when exactly one event of the
contract is anonymous (the set of anonymous signatures is a singleton). -/
def get_anonymous_event_abi (env : Env) (st : RepoState) (chain_id address : String) :
    Except Unit (Option EventSemantics) × RepoState :=
  if address = "" then (.ok none, st)
  else
    let res := get_semantics env st chain_id address
    (res.1.map fun sem => sem.bind fun s =>
      let anon := ((s.contract.events.filter fun p => p.2.anonymous).map Prod.fst).dedup
      match anon with
      | [sig] => lookupA s.contract.events sig
      | _ => none,
     res.2.1)

/-- `get_function_abi`: function lookup by signature. -/
def get_function_abi (env : Env) (st : RepoState) (chain_id address signature : String) :
    Except Unit (Option FunctionSemantics) × RepoState :=
  if address = "" then (.ok none, st)
  else
    let res := get_semantics env st chain_id address
    (res.1.map fun sem => sem.bind fun s => lookupA s.contract.functions signature,
     res.2.1)

/-- `get_constructor_abi`: the function entry keyed by the literal name
`"constructor"`, with the synthetic creation-output marker appended to its
outputs; no result when the entry is absent. -/
def get_constructor_abi (env : Env) (st : RepoState) (chain_id address : String) :
    Except Unit (Option FunctionSemantics) × RepoState :=
  if address = "" then (.ok none, st)
  else
    let res := get_semantics env st chain_id address
    (res.1.map fun sem => sem.bind fun s =>
      (lookupA s.contract.functions "constructor").map fun f =>
        { f with outputs := f.outputs ++ [createOutputMarker] },
     res.2.1)

/-- `check_is_contract`: `semantics is not None and semantics.is_contract`. -/
def check_is_contract (env : Env) (st : RepoState) (chain_id address : String) :
    Except Unit Bool × RepoState :=
  if address = "" then (.ok false, st)
  else
    let res := get_semantics env st chain_id address
    (res.1.map fun sem =>
      match sem with
      | some s => s.is_contract
      | none => false,
     res.2.1)

/-- `get_standard`: projection of the resolved record's standard. -/
def get_standard (env : Env) (st : RepoState) (chain_id address : String) :
    Except Unit (Option String) × RepoState :=
  if address = "" then (.ok none, st)
  else
    let res := get_semantics env st chain_id address
    (res.1.map fun sem => sem.bind fun s => s.standard, res.2.1)

/-- A proxy-table entry (the externally supplied `proxies` argument):
display name and optional token descriptor. -/
structure ProxyRecord where
  name : String
  token : Option ERC20Semantics
deriving Repr

/-- `get_token_data`: resolved ERC20 descriptor first, then the proxy
table's token, finally the placeholder `(address, "Unknown", 18)`; the
standard component is the literal `"ERC20"` for any non-empty address. -/
def get_token_data (env : Env) (st : RepoState) (chain_id address : String)
    (proxies : List (String × ProxyRecord)) :
    Except Unit (Option String × Option String × Option Int × Option String) × RepoState :=
  if address = "" then (.ok (none, none, none, none), st)
  else
    let res := get_semantics env st chain_id address
    (res.1.map fun sem =>
      let fallback :=
        match lookupA proxies address with
        | some p =>
          match p.token with
          | some t => (some t.name, some t.symbol, some t.decimals, some "ERC20")
          | none => (some address, some "Unknown", some (18 : Int), some "ERC20")
        | none => (some address, some "Unknown", some (18 : Int), some "ERC20")
      match sem with
      | some s =>
        match s.erc20 with
        | some e => (some e.name, some e.symbol, some e.decimals, some "ERC20")
        | none => fallback
      | none => fallback,
     res.2.1)

/-- `get_address_label`: precompiled table first (before any resolution),
then token symbol, then the proxy table, then the resolved display name,
finally the raw address; accessing `.erc20` on an absent record raises
(modelled as `.error`). -/
def get_address_label (env : Env) (st : RepoState) (chain_id address : String)
    (proxies : List (String × ProxyRecord)) :
    Except Unit String × RepoState :=
  if address = "" then (.ok "", st)
  else if env.isPrecompiled address then (.ok "Precompiled", st)
  else
    let res := get_semantics env st chain_id address
    (match res.1 with
     | .error e => .error e
     | .ok none => .error ()
     | .ok (some s) =>
       .ok (match s.erc20 with
            | some e => e.symbol
            | none =>
              match lookupA proxies address with
              | some p => p.name
              | none => if s.name = "" then address else s.name),
     res.2.1)

/-- Character-list substring test (kernel-reducible). -/
def charsInfixOf (needle : List Char) : List Char → Bool
  | [] => needle.isEmpty
  | b :: bs => prefixChars needle (b :: bs) || charsInfixOf needle bs

/-- Python `needle in hay` on strings. -/
def strContains (hay needle : String) : Bool :=
  charsInfixOf needle.toList hay.toList

/-- The synthetic-placeholder heuristic of `update_or_insert_signature`:
some value of the stored record's first argument dict (its `name` or its
`type`) contains the substring `"arg"`. -/
def argLooksSynthetic (r : SigRecord) : Bool :=
  match r.args.head? with
  | some a => strContains a.name "arg" || strContains a.type "arg"
  | none => false

/-- Match test of the registry loop: same name, same hash, same argument
count (the records scanned were already filtered by hash). -/
def sigMatches (s : Signature) (r : SigRecord) : Bool :=
  s.name == r.name && s.signature_hash == r.signature_hash
    && s.args.length == r.args.length

/-- The updated record written for the first matching entry: argument
names/types overwritten when the stored ones look synthetic (and the new
signature has arguments), `count` incremented, `guessed` cleared. -/
def updatedRecord (s : Signature) (r : SigRecord) : SigRecord :=
  let args' :=
    if !s.args.isEmpty && argLooksSynthetic r
    then s.args.map fun a => ⟨a.name, a.type⟩
    else r.args
  { r with args := args', count := r.count + 1, guessed := false }

/-- `update_or_insert_signature`, acting on the list of stored records for
the signature's hash (the result of `get_signature_semantics`, in
iteration order): the first matching entry is replaced by its update and
the scan stops; when no entry matches, the `for`-`else` inserts the new
signature's raw record. -/
def update_or_insert_signature : List SigRecord → Signature → List SigRecord
  | [], s => [s.toRecord]
  | r :: rest, s =>
    if sigMatches s r
    then updatedRecord s r :: rest
    else r :: update_or_insert_signature rest s

/-- A simple concrete environment used by the closed witness and
counterexample theorems: empty store, zero code hash everywhere (every
address resolves as an EOA), identity amendment, ENS returning the raw
address. -/
def baseEnv : Env where
  get_address_semantics := fun _ _ => none
  get_contract_semantics := fun _ => none
  get_code_hash := fun _ _ => ZERO_HASH
  get_contract_abi := fun _ _ => (none, false)
  decode_abi := fun _ => ([], [])
  guess_erc20_proxy := fun _ _ => none
  guess_erc20_token := fun _ _ => none
  get_erc20_token := fun _ _ _ => .error ()
  ens_name := fun _ a => a
  amend := id
  insert_contract_id := fun _ => some "id0"
  isPrecompiled := fun _ => false
  erc20Events := ["Transfer", "Approval"]
  erc20Functions := ["totalSupply", "balanceOf", "transfer", "transferFrom"]
  erc721Events := ["Transfer721", "ApprovalForAll"]
  erc721Functions := ["ownerOf", "safeTransferFrom"]

/-! ### Shared lemmas -/

theorem lookupCache_cons (k0 : String × String) (v : Option AddressSemantics)
    (rest : List ((String × String) × Option AddressSemantics)) (k : String × String) :
    lookupCache ((k0, v) :: rest) k = if k0 = k then some v else lookupCache rest k := rfl

/-- Exhaustive branch analysis of `get_semantics`: memo hit, empty-address
guard, raising body, or full resolution followed by amendment, memoization
and recording. -/
theorem get_semantics_cases (env : Env) (st : RepoState) (c a : String) :
    (∃ v, lookupCache st.cache (c, a) = some v ∧
      get_semantics env st c a = (.ok v, st, []))
    ∨ (lookupCache st.cache (c, a) = none ∧ a = "" ∧
      get_semantics env st c a =
        (.ok none, { st with cache := ((c, a), none) :: st.cache }, []))
    ∨ (lookupCache st.cache (c, a) = none ∧ a ≠ "" ∧ ∃ e,
      resolve_semantics env c a = .error e ∧
      get_semantics env st c a = (.error e, st, []))
    ∨ (lookupCache st.cache (c, a) = none ∧ a ≠ "" ∧ ∃ sem calls,
      resolve_semantics env c a = .ok (sem, calls) ∧
      get_semantics env st c a =
        (.ok (some { sem with contract := env.amend sem.contract }),
         { cache := ((c, a), some { sem with contract := env.amend sem.contract })
             :: st.cache,
           records := appendRecord st.records a },
         calls)) := by
  cases hlk : lookupCache st.cache (c, a) with
  | none =>
    by_cases ha : a = ""
    · subst ha
      exact Or.inr (Or.inl ⟨rfl, rfl, by simp [get_semantics, hlk]⟩)
    · cases hres : resolve_semantics env c a with
      | error e =>
        exact Or.inr (Or.inr (Or.inl ⟨rfl, ha, e, rfl,
          by simp [get_semantics, hlk, ha, hres]⟩))
      | ok p =>
        exact Or.inr (Or.inr (Or.inr ⟨rfl, ha, p.1, p.2, rfl,
          by simp [get_semantics, hlk, ha, hres]⟩))
  | some v => exact Or.inl ⟨v, rfl, by simp [get_semantics, hlk]⟩

/-- A record whose contract semantics has the Amendment Layer transform
applied (it is the amendment of some pre-amendment contract). -/
def Amended (env : Env) (r : AddressSemantics) : Prop :=
  ∃ c0, r.contract = env.amend c0

/-- Every record held in the `get_semantics` memo is amended (true of the
initial empty memo and preserved by every call, since records enter the
memo only after the amendment transform ran on them). -/
def CacheAmended (env : Env) (st : RepoState) : Prop :=
  ∀ k r, lookupCache st.cache k = some (some r) → Amended env r

/-! ### C1 -/

/-- C1: for every (chain_id, address), every `get_semantics` call that
returns a record — a fresh resolution or a memo-served one — returns a
record whose contract semantics has the Amendment Layer transform applied
(the transform ran on it before it was returned and memoized), and the
memo invariant is preserved. -/
theorem get_semantics_returns_amended_contract (env : Env) (st : RepoState)
    (c a : String) (r : AddressSemantics) (st' : RepoState) (calls : List TierCall)
    (hinv : CacheAmended env st)
    (hrun : get_semantics env st c a = (.ok (some r), st', calls)) :
    Amended env r ∧ CacheAmended env st' := by
  rcases get_semantics_cases env st c a with
    ⟨v, hlk, heq⟩ | ⟨hlk, ha, heq⟩ | ⟨hlk, ha, e, hres, heq⟩ |
    ⟨hlk, ha, sem, calls', hres, heq⟩
  · rw [heq] at hrun
    simp only [Prod.mk.injEq, Except.ok.injEq] at hrun
    obtain ⟨h1, h2, h3⟩ := hrun
    subst h1; subst h2
    exact ⟨hinv _ _ hlk, hinv⟩
  · rw [heq] at hrun
    simp at hrun
  · rw [heq] at hrun
    simp at hrun
  · rw [heq] at hrun
    simp only [Prod.mk.injEq, Except.ok.injEq, Option.some.injEq] at hrun
    obtain ⟨h1, h2, h3⟩ := hrun
    subst h1; subst h2
    refine ⟨⟨sem.contract, rfl⟩, ?_⟩
    intro k r' hk
    rw [lookupCache_cons] at hk
    by_cases hkey : (c, a) = k
    · rw [if_pos hkey] at hk
      simp only [Option.some.injEq] at hk
      exact ⟨sem.contract, by rw [← hk]⟩
    · rw [if_neg hkey] at hk
      exact hinv k r' hk

/-- Closed witness for C1: the invariant hypotheses hold at the initial
state and a concrete EOA resolution, and the returned record is amended. -/
theorem get_semantics_returns_amended_contract_witness :
    Amended baseEnv
      { chain_id := "1", address := "0xaa", name := "0xaa",
        is_contract := false, contract := EOAContract } :=
  (get_semantics_returns_amended_contract baseEnv initState "1" "0xaa"
    { chain_id := "1", address := "0xaa", name := "0xaa",
      is_contract := false, contract := EOAContract }
    { cache := [(("1", "0xaa"),
        some { chain_id := "1", address := "0xaa", name := "0xaa",
               is_contract := false, contract := EOAContract })],
      records := none }
    [.storeRead, .codeHash, .ensLookup, .dbWriteContract, .dbWriteAddress]
    (fun _ _ h => nomatch h) (by rfl)).1

/-! ### C10 -/

/-- Memo consistency: a memoized value is `none` exactly when its key's
address component is the empty string (true initially, preserved by every
call: the body memoizes `none` only on the empty-address guard and every
completed resolution memoizes a record). -/
def CacheNoneIffEmpty (st : RepoState) : Prop :=
  ∀ c a v, lookupCache st.cache (c, a) = some v → (v = none ↔ a = "")

/-- C10: for every non-empty address, a `get_semantics` call that returns
normally always produces a record — the no-result outcome occurs exactly
for the empty address (store misses fall through to the chain tier, which
yields the EOA record or unconditionally constructs a contract record via
the registry or heuristic tier) — and memo consistency is preserved. -/
theorem get_semantics_none_iff_empty (env : Env) (st : RepoState) (c a : String)
    (hinv : CacheNoneIffEmpty st) :
    ((get_semantics env st c a).1 = .ok none ↔ a = "")
    ∧ CacheNoneIffEmpty (get_semantics env st c a).2.1 := by
  rcases get_semantics_cases env st c a with
    ⟨v, hlk, heq⟩ | ⟨hlk, ha, heq⟩ | ⟨hlk, ha, e, hres, heq⟩ |
    ⟨hlk, ha, sem, calls', hres, heq⟩
  · rw [heq]
    constructor
    · simpa using hinv c a v hlk
    · exact hinv
  · rw [heq]
    constructor
    · simp [ha]
    · intro c' a' v hk
      rw [lookupCache_cons] at hk
      by_cases hkey : (c, a) = (c', a')
      · rw [if_pos hkey] at hk
        have hv : v = none := by simpa using hk.symm
        have ha' : a' = a := (Prod.mk.injEq .. ▸ hkey).2.symm
        simp [hv, ha', ha]
      · rw [if_neg hkey] at hk
        exact hinv c' a' v hk
  · rw [heq]
    constructor
    · simp [ha]
    · exact hinv
  · rw [heq]
    constructor
    · simp [ha]
    · intro c' a' v hk
      rw [lookupCache_cons] at hk
      by_cases hkey : (c, a) = (c', a')
      · rw [if_pos hkey] at hk
        have hv : v = some { sem with contract := env.amend sem.contract } := by
          simpa using hk.symm
        have ha' : a' = a := (Prod.mk.injEq .. ▸ hkey).2.symm
        simp [hv, ha', ha]
      · rw [if_neg hkey] at hk
        exact hinv c' a' v hk

/-- Closed witness for C10 at a concrete non-empty address and the
initial (consistent) memo state. -/
theorem get_semantics_none_iff_empty_witness :
    (get_semantics baseEnv initState "1" "0xaa").1 = .ok none ↔ "0xaa" = "" :=
  (get_semantics_none_iff_empty baseEnv initState "1" "0xaa"
    (fun _ _ _ h => nomatch h)).1

/-! ### C9 -/

/-- The value component of a `get_semantics` run (`none` on a raise). -/
def semValue
    (x : Except Unit (Option AddressSemantics) × RepoState × List TierCall) :
    Option AddressSemantics :=
  match x.1 with
  | .ok v => v
  | .error _ => none

/-- C9 counterexample: resolve an address once with recording off, toggle
recording on, and ask again — the result is served from the memo
(`isSome`), yet the observation log stays empty: an address passed to the
resolver while recording was active was not appended. -/
theorem get_semantics_recording_counterexample :
    (record (get_semantics baseEnv initState "1" "0xaa").2.1).records
        = some ([] : List String)
    ∧ (get_semantics baseEnv
        (record (get_semantics baseEnv initState "1" "0xaa").2.1)
        "1" "0xaa").2.1.records = some ([] : List String)
    ∧ (semValue (get_semantics baseEnv
        (record (get_semantics baseEnv initState "1" "0xaa").2.1)
        "1" "0xaa")).isSome = true :=
  ⟨rfl, rfl, rfl⟩

/-- C9 (amended): recording is inactive by default; while recording is
active every address whose resolution executes the resolver body (a memo
miss with a non-empty address that resolves without raising) is appended
to the observation log; a memo-served call appends nothing; and toggling
recording on or off never changes a resolution result. -/
theorem get_semantics_recording_spec (env : Env) (st : RepoState)
    (c a : String) (l : List String) (v : Option AddressSemantics)
    (recs : Option (List String)) :
    initState.records = none
    ∧ (st.records = some l → lookupCache st.cache (c, a) = none → a ≠ "" →
        ∀ sem calls, resolve_semantics env c a = .ok (sem, calls) →
          (get_semantics env st c a).2.1.records = some (l ++ [a]))
    ∧ (lookupCache st.cache (c, a) = some v →
        (get_semantics env st c a).2.1.records = st.records)
    ∧ (get_semantics env { st with records := recs } c a).1
        = (get_semantics env st c a).1 := by
  refine ⟨rfl, ?_, ?_, ?_⟩
  · intro hrec hlk ha sem calls hres
    simp [get_semantics, hlk, ha, hres, appendRecord, hrec]
  · intro hk
    simp [get_semantics, hk]
  · cases hlk : lookupCache st.cache (c, a) with
    | some w => simp [get_semantics, hlk]
    | none =>
      by_cases ha : a = ""
      · subst ha; simp [get_semantics, hlk]
      · cases hres : resolve_semantics env c a with
        | error e => simp [get_semantics, hlk, ha, hres]
        | ok p => simp [get_semantics, hlk, ha, hres]

/-- Closed witness for C9 (amended), exercising all four parts: default
off, append on a recorded miss, no append on a memo hit, and result
equality across a toggle. -/
theorem get_semantics_recording_spec_witness :
    initState.records = none
    ∧ (get_semantics baseEnv (record initState) "1" "0xaa").2.1.records
        = some ([] ++ ["0xaa"])
    ∧ (get_semantics baseEnv (get_semantics baseEnv initState "1" "0xaa").2.1
        "1" "0xaa").2.1.records
        = (get_semantics baseEnv initState "1" "0xaa").2.1.records
    ∧ (get_semantics baseEnv { initState with records := some [] } "1" "0xaa").1
        = (get_semantics baseEnv initState "1" "0xaa").1 :=
  ⟨(get_semantics_recording_spec baseEnv initState "1" "0xaa" [] none none).1,
   (get_semantics_recording_spec baseEnv (record initState) "1" "0xaa" [] none
      none).2.1 rfl rfl (by decide)
     { chain_id := "1", address := "0xaa", name := "0xaa",
       is_contract := false, contract := EOAContract }
     [.storeRead, .codeHash, .ensLookup, .dbWriteContract, .dbWriteAddress]
     (by rfl),
   (get_semantics_recording_spec baseEnv
      (get_semantics baseEnv initState "1" "0xaa").2.1 "1" "0xaa" []
      (some { chain_id := "1", address := "0xaa", name := "0xaa",
              is_contract := false, contract := EOAContract })
      none).2.2.1 (by rfl),
   (get_semantics_recording_spec baseEnv initState "1" "0xaa" []
      none (some [])).2.2.2⟩

/-! ### C2 -/

/-- Environment whose store holds an (inconsistent, but representable)
address record pointing at the zero-hash sentinel while flagged as a
contract and carrying an ERC20 descriptor. -/
def envStoredEoa : Env :=
  { baseEnv with
    get_address_semantics := fun _ _ =>
      some { contract := ZERO_HASH, name := some "X", is_contract := true,
             standard := none, erc20 := some ⟨"Tok", "TOK", 9⟩ } }

/-- C2 counterexample: for an address whose code hash read from the store
equals the zero-hash sentinel, resolution returns a record with
`is_contract = true` and a present ERC20 descriptor (the store tier copies
both straight from the stored record), contradicting the claim that every
sentinel-hash resolution yields `is_contract = false` and no ERC20
descriptor. -/
theorem eoa_sentinel_counterexample :
    semValue (get_semantics envStoredEoa initState "1" "0xaa")
      = some { chain_id := "1", address := "0xaa", name := "X",
               is_contract := true, contract := EOAContract,
               standard := none, erc20 := some ⟨"Tok", "TOK", 9⟩ }
    ∧ EOAContract.code_hash = ZERO_HASH := ⟨rfl, rfl⟩

/-- C2 (amended): when the code hash is queried from the chain (store
miss) and equals the sentinel, resolution yields `is_contract = false`,
contract name `"EOA"` with empty maps, no ERC20 descriptor, and neither
the registry nor the heuristic tier is consulted; when the stored record's
contract hash equals the sentinel, the contract semantics is likewise the
empty `"EOA"` contract and no further tier is consulted, but
`is_contract`, `standard` and the ERC20 descriptor follow the stored
record. (Requires the amendment transform to fix the EOA contract, as the
curated overrides do.) -/
theorem eoa_sentinel_spec (env : Env) (st : RepoState) (c a : String)
    (h0 : a ≠ "") (hc : lookupCache st.cache (c, a) = none)
    (hamend : env.amend EOAContract = EOAContract) :
    (env.get_address_semantics c a = none → env.get_code_hash a c = ZERO_HASH →
      (get_semantics env st c a).1 = .ok (some
        { chain_id := c, address := a, name := env.ens_name c a,
          is_contract := false, contract := EOAContract })
      ∧ registryHeuristicFree (get_semantics env st c a).2.2 = true)
    ∧ (∀ raw, env.get_address_semantics c a = some raw → raw.contract = ZERO_HASH →
      (get_semantics env st c a).1 = .ok (some
        { chain_id := c, address := a,
          name := if raw.name.getD a = a ∧ raw.is_contract = false
                  then env.ens_name c a else raw.name.getD a,
          is_contract := raw.is_contract, contract := EOAContract,
          standard := raw.standard,
          erc20 := raw.erc20.map fun e => ⟨e.name, e.symbol, e.decimals⟩ })
      ∧ registryHeuristicFree (get_semantics env st c a).2.2 = true) := by
  have hamend' : env.amend
      { code_hash := ZERO_HASH, name := "EOA", events := [], functions := [],
        transformations := [] }
      = { code_hash := ZERO_HASH, name := "EOA", events := [], functions := [],
          transformations := [] } := hamend
  constructor
  · intro hstore hhash
    cases hins : env.insert_contract_id
        { code_hash := ZERO_HASH, name := "EOA", events := [], functions := [],
          transformations := [] } with
    | some i =>
      constructor <;>
        simp [get_semantics, hc, h0, resolve_semantics, _read_stored_semantics,
          hstore, hhash, hamend', update_semantics_calls, EOAContract, hins,
          insert_contract_signatures, registryHeuristicFree]
    | none =>
      constructor <;>
        simp [get_semantics, hc, h0, resolve_semantics, _read_stored_semantics,
          hstore, hhash, hamend', update_semantics_calls, EOAContract, hins,
          insert_contract_signatures, registryHeuristicFree]
  · intro raw hstore hcontract
    by_cases hname : raw.name.getD a = a ∧ raw.is_contract = false
    · constructor <;>
        simp [get_semantics, hc, h0, resolve_semantics, _read_stored_semantics,
          hstore, hcontract, hamend', EOAContract, hname, registryHeuristicFree]
    · constructor <;>
        simp [get_semantics, hc, h0, resolve_semantics, _read_stored_semantics,
          hstore, hcontract, hamend', EOAContract, hname, registryHeuristicFree]

/-- Closed witness for C2 (amended): the chain path on a store miss and
the store path on a sentinel-hash stored record, at concrete inputs. -/
theorem eoa_sentinel_spec_witness :
    ((get_semantics baseEnv initState "1" "0xaa").1 = .ok (some
        { chain_id := "1", address := "0xaa", name := "0xaa",
          is_contract := false, contract := EOAContract })
      ∧ registryHeuristicFree (get_semantics baseEnv initState "1" "0xaa").2.2
          = true)
    ∧ ((get_semantics envStoredEoa initState "1" "0xaa").1 = .ok (some
        { chain_id := "1", address := "0xaa", name := "X",
          is_contract := true, contract := EOAContract,
          standard := none, erc20 := some ⟨"Tok", "TOK", 9⟩ })
      ∧ registryHeuristicFree
          (get_semantics envStoredEoa initState "1" "0xaa").2.2 = true) :=
  ⟨(eoa_sentinel_spec baseEnv initState "1" "0xaa" (by decide) rfl rfl).1
      rfl rfl,
   (eoa_sentinel_spec envStoredEoa initState "1" "0xaa" (by decide) rfl rfl).2
      { contract := ZERO_HASH, name := some "X", is_contract := true,
        standard := none, erc20 := some ⟨"Tok", "TOK", 9⟩ } rfl rfl⟩

/-! ### C6 -/

/-- C6: an empty address input short-circuits every entry point to its
explicit no-result value — `none` for the record, event, function,
anonymous-event, constructor, transformation and standard lookups, `false`
for the contract flag, the all-absent tuple for token data, the empty
string for labels — with no collaborator call and (for the derived
accessors) no state change, before any store or remote tier is attempted.
(The hypothesis rules out a memo entry holding a record under the
empty-address key, which no execution can create.) -/
theorem empty_address_no_result (env : Env) (st : RepoState) (c sig : String)
    (proxies : List (String × ProxyRecord))
    (h : ∀ r, lookupCache st.cache (c, "") ≠ some (some r)) :
    ((get_semantics env st c "").1 = .ok none ∧ (get_semantics env st c "").2.2 = [])
    ∧ get_event_abi env st c "" sig = (.ok none, st)
    ∧ get_transformations env st c "" sig = (.ok none, st)
    ∧ get_anonymous_event_abi env st c "" = (.ok none, st)
    ∧ get_function_abi env st c "" sig = (.ok none, st)
    ∧ get_constructor_abi env st c "" = (.ok none, st)
    ∧ check_is_contract env st c "" = (.ok false, st)
    ∧ get_standard env st c "" = (.ok none, st)
    ∧ get_token_data env st c "" proxies = (.ok (none, none, none, none), st)
    ∧ get_address_label env st c "" proxies = (.ok "", st) := by
  refine ⟨?_, rfl, rfl, rfl, rfl, rfl, rfl, rfl, rfl, rfl⟩
  cases hlk : lookupCache st.cache (c, "") with
  | none => constructor <;> simp [get_semantics, hlk]
  | some v =>
    cases v with
    | none => constructor <;> simp [get_semantics, hlk]
    | some r => exact (h r hlk).elim

/-- Closed witness for C6 at concrete inputs and the initial state. -/
theorem empty_address_no_result_witness :
    ((get_semantics baseEnv initState "1" "").1 = .ok none
      ∧ (get_semantics baseEnv initState "1" "").2.2 = [])
    ∧ get_event_abi baseEnv initState "1" "" "0xsig" = (.ok none, initState)
    ∧ get_transformations baseEnv initState "1" "" "0xsig" = (.ok none, initState)
    ∧ get_anonymous_event_abi baseEnv initState "1" "" = (.ok none, initState)
    ∧ get_function_abi baseEnv initState "1" "" "0xsig" = (.ok none, initState)
    ∧ get_constructor_abi baseEnv initState "1" "" = (.ok none, initState)
    ∧ check_is_contract baseEnv initState "1" "" = (.ok false, initState)
    ∧ get_standard baseEnv initState "1" "" = (.ok none, initState)
    ∧ get_token_data baseEnv initState "1" "" [] = (.ok (none, none, none, none), initState)
    ∧ get_address_label baseEnv initState "1" "" [] = (.ok "", initState) :=
  empty_address_no_result baseEnv initState "1" "0xsig" []
    (fun _ hl => nomatch hl)

/-! ### C3 -/

theorem hasKey_eraseKey {α : Type} (m : List (String × α)) (k : String) :
    hasKey (eraseKey m k) k = false := by
  induction m with
  | nil => rfl
  | cons p rest ih =>
    have ih' : (eraseKey rest k).any (fun q => decide (q.1 = k)) = false := ih
    by_cases hp : p.1 = k
    · have h1 : eraseKey (p :: rest) k = eraseKey rest k := by
        simp [eraseKey, hp]
      simp only [h1]
      exact ih
    · have h1 : eraseKey (p :: rest) k = p :: eraseKey rest k := by
        simp [eraseKey, hp]
      simp [h1, hasKey, List.any_cons, hp, ih']

/-- Characterization of the standard chosen by
`_decode_standard_semantics` as a nest of guards. -/
theorem decode_standard_std (env : Env) (addr name : String)
    (events : List (String × EventSemantics))
    (functions : List (String × FunctionSemantics)) :
    (_decode_standard_semantics env addr name events functions).1.1 =
      if addr = "" then none
      else if env.erc20Events.all (fun e => hasKey events e)
            && env.erc20Functions.all (fun f => hasKey functions f) then some "ERC20"
      else if env.erc721Events.all (fun e => hasKey events e)
            && env.erc721Functions.all (fun f => hasKey functions f) then some "ERC721"
      else none := by
  by_cases h0 : addr = ""
  · simp [_decode_standard_semantics, h0]
  · by_cases h1 : (env.erc20Events.all (fun e => hasKey events e)
        && env.erc20Functions.all (fun f => hasKey functions f)) = true
    · cases htd : env.get_erc20_token addr name functions with
      | ok td => simp [_decode_standard_semantics, h0, h1, htd]
      | error e => simp [_decode_standard_semantics, h0, h1, htd]
    · by_cases h2 : (env.erc721Events.all (fun e => hasKey events e)
          && env.erc721Functions.all (fun f => hasKey functions f)) = true
      · simp [_decode_standard_semantics, h0, h1, h2]
      · simp [_decode_standard_semantics, h0, h1, h2]

/-- C3: standard classification is all-or-nothing and prioritized — a
standard is assigned only when every required event and function signature
of its canonical set is present in the decoded maps; removing any single
required event or function defeats that standard's classification; the
standards are tested ERC20 first, ERC721 second, and the first full match
wins. -/
theorem standard_classification_spec (env : Env) (addr name : String)
    (events : List (String × EventSemantics))
    (functions : List (String × FunctionSemantics)) (h0 : addr ≠ "") :
    ((_decode_standard_semantics env addr name events functions).1.1 = some "ERC20" →
      env.erc20Events.all (fun e => hasKey events e) = true
      ∧ env.erc20Functions.all (fun f => hasKey functions f) = true)
    ∧ ((_decode_standard_semantics env addr name events functions).1.1 = some "ERC721" →
      env.erc721Events.all (fun e => hasKey events e) = true
      ∧ env.erc721Functions.all (fun f => hasKey functions f) = true)
    ∧ (env.erc20Events.all (fun e => hasKey events e) = true →
       env.erc20Functions.all (fun f => hasKey functions f) = true →
      (_decode_standard_semantics env addr name events functions).1.1 = some "ERC20")
    ∧ ((env.erc20Events.all (fun e => hasKey events e)
        && env.erc20Functions.all (fun f => hasKey functions f)) = false →
       env.erc721Events.all (fun e => hasKey events e) = true →
       env.erc721Functions.all (fun f => hasKey functions f) = true →
      (_decode_standard_semantics env addr name events functions).1.1 = some "ERC721")
    ∧ (∀ e ∈ env.erc20Events,
      (_decode_standard_semantics env addr name (eraseKey events e) functions).1.1
        ≠ some "ERC20")
    ∧ (∀ f ∈ env.erc20Functions,
      (_decode_standard_semantics env addr name events (eraseKey functions f)).1.1
        ≠ some "ERC20")
    ∧ (∀ e ∈ env.erc721Events,
      (_decode_standard_semantics env addr name (eraseKey events e) functions).1.1
        ≠ some "ERC721")
    ∧ (∀ f ∈ env.erc721Functions,
      (_decode_standard_semantics env addr name events (eraseKey functions f)).1.1
        ≠ some "ERC721") := by
  refine ⟨?_, ?_, ?_, ?_, ?_, ?_, ?_, ?_⟩
  · intro hres
    rw [decode_standard_std, if_neg h0] at hres
    by_cases h1 : (env.erc20Events.all (fun e => hasKey events e)
        && env.erc20Functions.all (fun f => hasKey functions f)) = true
    · exact Bool.and_eq_true_iff.mp h1
    · rw [if_neg h1] at hres
      split at hres <;> simp at hres
  · intro hres
    rw [decode_standard_std, if_neg h0] at hres
    by_cases h1 : (env.erc20Events.all (fun e => hasKey events e)
        && env.erc20Functions.all (fun f => hasKey functions f)) = true
    · rw [if_pos h1] at hres
      simp at hres
    · rw [if_neg h1] at hres
      by_cases h2 : (env.erc721Events.all (fun e => hasKey events e)
          && env.erc721Functions.all (fun f => hasKey functions f)) = true
      · exact Bool.and_eq_true_iff.mp h2
      · rw [if_neg h2] at hres
        simp at hres
  · intro ha hb
    rw [decode_standard_std, if_neg h0]
    simp [ha, hb]
  · intro h20 h7a h7b
    rw [decode_standard_std, if_neg h0]
    simp [h20, h7a, h7b]
  · intro e he
    rw [decode_standard_std, if_neg h0]
    have hall : env.erc20Events.all (fun x => hasKey (eraseKey events e) x) = false := by
      cases hb : env.erc20Events.all (fun x => hasKey (eraseKey events e) x) with
      | false => rfl
      | true =>
        have := List.all_eq_true.mp hb e he
        rw [hasKey_eraseKey] at this
        exact absurd this (by decide)
    rw [hall]
    simp only [Bool.false_and, if_false]
    split <;> simp_all
  · intro f hf
    rw [decode_standard_std, if_neg h0]
    have hall : env.erc20Functions.all (fun x => hasKey (eraseKey functions f) x) = false := by
      cases hb : env.erc20Functions.all (fun x => hasKey (eraseKey functions f) x) with
      | false => rfl
      | true =>
        have := List.all_eq_true.mp hb f hf
        rw [hasKey_eraseKey] at this
        exact absurd this (by decide)
    rw [Bool.and_comm, hall]
    simp only [Bool.false_and, if_false]
    split <;> simp_all
  · intro e he
    rw [decode_standard_std, if_neg h0]
    have hall : env.erc721Events.all (fun x => hasKey (eraseKey events e) x) = false := by
      cases hb : env.erc721Events.all (fun x => hasKey (eraseKey events e) x) with
      | false => rfl
      | true =>
        have := List.all_eq_true.mp hb e he
        rw [hasKey_eraseKey] at this
        exact absurd this (by decide)
    split
    · simp
    · rw [hall]
      simp
  · intro f hf
    rw [decode_standard_std, if_neg h0]
    have hall : env.erc721Functions.all (fun x => hasKey (eraseKey functions f) x) = false := by
      cases hb : env.erc721Functions.all (fun x => hasKey (eraseKey functions f) x) with
      | false => rfl
      | true =>
        have := List.all_eq_true.mp hb f hf
        rw [hasKey_eraseKey] at this
        exact absurd this (by decide)
    split
    · simp
    · rw [Bool.and_comm, hall]
      simp

/-- A concrete decoded event map containing every canonical ERC20 event
of `baseEnv`. -/
def erc20EventsFull : List (String × EventSemantics) :=
  [("Transfer", ⟨"Transfer", false, "Transfer", []⟩),
   ("Approval", ⟨"Approval", false, "Approval", []⟩)]

/-- A concrete decoded function map containing every canonical ERC20
function of `baseEnv`. -/
def erc20FunctionsFull : List (String × FunctionSemantics) :=
  [("totalSupply", ⟨"totalSupply", "totalSupply", [], []⟩),
   ("balanceOf", ⟨"balanceOf", "balanceOf", [], []⟩),
   ("transfer", ⟨"transfer", "transfer", [], []⟩),
   ("transferFrom", ⟨"transferFrom", "transferFrom", [], []⟩)]

/-- Closed witness for C3: a fully qualifying ERC20 interface classifies
as ERC20, and removing the single required `Transfer` event defeats the
classification. -/
theorem standard_classification_spec_witness :
    (_decode_standard_semantics baseEnv "0xaa" "Tok"
        erc20EventsFull erc20FunctionsFull).1.1 = some "ERC20"
    ∧ (_decode_standard_semantics baseEnv "0xaa" "Tok"
        (eraseKey erc20EventsFull "Transfer") erc20FunctionsFull).1.1
      ≠ some "ERC20" :=
  ⟨(standard_classification_spec baseEnv "0xaa" "Tok" erc20EventsFull
      erc20FunctionsFull (by decide)).2.2.1 rfl rfl,
   (standard_classification_spec baseEnv "0xaa" "Tok" erc20EventsFull
      erc20FunctionsFull (by decide)).2.2.2.2.1 "Transfer" (by decide)⟩

/-! ### C7 -/

/-- C7: when a contract fully matches ERC20 but the live token-descriptor
read raises, classification still succeeds with standard ERC20 and the
default descriptor — name and symbol both the contract's declared name,
decimals 18. (The embedded classifier is total: the `try`/`except` in the
source confines the failure, so no exception reaches the caller.) -/
theorem erc20_default_descriptor_on_failure (env : Env) (addr nm : String)
    (events : List (String × EventSemantics))
    (functions : List (String × FunctionSemantics))
    (h0 : addr ≠ "")
    (hev : env.erc20Events.all (fun e => hasKey events e) = true)
    (hfn : env.erc20Functions.all (fun f => hasKey functions f) = true)
    (herr : env.get_erc20_token addr nm functions = .error ()) :
    (_decode_standard_semantics env addr nm events functions).1
      = (some "ERC20", some ⟨nm, nm, 18⟩) := by
  simp [_decode_standard_semantics, h0, hev, hfn, herr]

/-- Closed witness for C7: `baseEnv`'s live read always fails, and a fully
qualifying interface still classifies as ERC20 with the default
descriptor. -/
theorem erc20_default_descriptor_on_failure_witness :
    (_decode_standard_semantics baseEnv "0xaa" "Tok"
        erc20EventsFull erc20FunctionsFull).1
      = (some "ERC20", some ⟨"Tok", "Tok", 18⟩) :=
  erc20_default_descriptor_on_failure baseEnv "0xaa" "Tok"
    erc20EventsFull erc20FunctionsFull (by decide) rfl rfl rfl

/-! ### C4 -/

theorem uois_no_match (s : Signature) :
    ∀ l : List SigRecord, (∀ r ∈ l, sigMatches s r = false) →
      update_or_insert_signature l s = l ++ [s.toRecord] := by
  intro l
  induction l with
  | nil => intro _; rfl
  | cons r rest ih =>
    intro h
    have hr : sigMatches s r = false := h r (List.mem_cons_self r rest)
    have hrest := ih fun r' hr' => h r' (List.mem_cons_of_mem r hr')
    simp [update_or_insert_signature, hr, hrest]

theorem uois_first_match (s : Signature) (r : SigRecord) (post : List SigRecord) :
    ∀ pre : List SigRecord, (∀ r' ∈ pre, sigMatches s r' = false) →
      sigMatches s r = true →
      update_or_insert_signature (pre ++ r :: post) s
        = pre ++ updatedRecord s r :: post := by
  intro pre
  induction pre with
  | nil =>
    intro _ hr
    simp [update_or_insert_signature, hr]
  | cons p pre' ih =>
    intro h hr
    have hp : sigMatches s p = false := h p (List.mem_cons_self p pre')
    have hrec := ih (fun r' hr' => h r' (List.mem_cons_of_mem p hr')) hr
    simp [update_or_insert_signature, hp, hrec]

/-- C4: registering a signature updates exactly the first stored entry
matching on (hash, name, argument count) — its `count` is incremented by
exactly one (never decreased), its `guessed` flag is cleared (never set
back), its key fields and argument count are preserved, and the records
around it are untouched; when no entry matches, exactly one new record is
appended, whose `guessed` flag is the signature's own — `true` for a
default-constructed (not explicitly verified) signature. -/
theorem signature_registry_update_spec (s : Signature)
    (pre post : List SigRecord) (r : SigRecord)
    (hash nm : String) (args : List SignatureArg) :
    ((∀ r' ∈ pre, sigMatches s r' = false) → sigMatches s r = true →
      update_or_insert_signature (pre ++ r :: post) s
          = pre ++ updatedRecord s r :: post
      ∧ (updatedRecord s r).count = r.count + 1
      ∧ (updatedRecord s r).guessed = false
      ∧ (updatedRecord s r).signature_hash = r.signature_hash
      ∧ (updatedRecord s r).name = r.name
      ∧ (updatedRecord s r).args.length = r.args.length)
    ∧ ((∀ r' ∈ pre, sigMatches s r' = false) →
      update_or_insert_signature pre s = pre ++ [s.toRecord]
      ∧ s.toRecord.guessed = s.guessed)
    ∧ ({ signature_hash := hash, name := nm, args := args : Signature }).guessed
        = true := by
  refine ⟨?_, ?_, rfl⟩
  · intro hpre hr
    have hlen : s.args.length = r.args.length := by
      have := hr
      simp only [sigMatches, Bool.and_eq_true, beq_iff_eq] at this
      exact this.2
    refine ⟨uois_first_match s r post pre hpre hr, rfl, rfl, rfl, rfl, ?_⟩
    by_cases hcond : (!s.args.isEmpty && argLooksSynthetic r) = true
    · simp [updatedRecord, hcond, hlen]
    · simp [updatedRecord, hcond]
  · intro hpre
    exact ⟨uois_no_match s pre hpre, rfl⟩

/-- Closed witness for C4: a concrete matching update (count 3 → 4,
`guessed` cleared, synthetic `arg0` argument renamed) and a concrete
no-match insertion with `guessed = true`. -/
theorem signature_registry_update_spec_witness :
    update_or_insert_signature
        [{ signature_hash := "0xabc", name := "foo",
           args := [⟨"arg0", "uint256"⟩], count := 3, guessed := true,
           tuple := false }]
        { signature_hash := "0xabc", name := "foo", args := [⟨"amount", "uint256"⟩] }
      = [updatedRecord
          { signature_hash := "0xabc", name := "foo", args := [⟨"amount", "uint256"⟩] }
          { signature_hash := "0xabc", name := "foo",
            args := [⟨"arg0", "uint256"⟩], count := 3, guessed := true,
            tuple := false }]
    ∧ (updatedRecord
        { signature_hash := "0xabc", name := "foo", args := [⟨"amount", "uint256"⟩] }
        { signature_hash := "0xabc", name := "foo",
          args := [⟨"arg0", "uint256"⟩], count := 3, guessed := true,
          tuple := false }).count = 3 + 1
    ∧ update_or_insert_signature []
        { signature_hash := "0xabc", name := "foo", args := [⟨"amount", "uint256"⟩] }
      = [Signature.toRecord
          { signature_hash := "0xabc", name := "foo", args := [⟨"amount", "uint256"⟩] }]
    ∧ ({ signature_hash := "0xdef", name := "bar", args := [] : Signature }).guessed
        = true :=
  ⟨((signature_registry_update_spec
      { signature_hash := "0xabc", name := "foo", args := [⟨"amount", "uint256"⟩] }
      [] []
      { signature_hash := "0xabc", name := "foo",
        args := [⟨"arg0", "uint256"⟩], count := 3, guessed := true,
        tuple := false }
      "0xdef" "bar" []).1 (fun _ h => nomatch h) rfl).1,
   ((signature_registry_update_spec
      { signature_hash := "0xabc", name := "foo", args := [⟨"amount", "uint256"⟩] }
      [] []
      { signature_hash := "0xabc", name := "foo",
        args := [⟨"arg0", "uint256"⟩], count := 3, guessed := true,
        tuple := false }
      "0xdef" "bar" []).1 (fun _ h => nomatch h) rfl).2.1,
   ((signature_registry_update_spec
      { signature_hash := "0xabc", name := "foo", args := [⟨"amount", "uint256"⟩] }
      [] []
      { signature_hash := "0xabc", name := "foo",
        args := [⟨"arg0", "uint256"⟩], count := 3, guessed := true,
        tuple := false }
      "0xdef" "bar" []).2.1 (fun _ h => nomatch h)).1,
   (signature_registry_update_spec
      { signature_hash := "0xabc", name := "foo", args := [⟨"amount", "uint256"⟩] }
      [] []
      { signature_hash := "0xabc", name := "foo",
        args := [⟨"arg0", "uint256"⟩], count := 3, guessed := true,
        tuple := false }
      "0xdef" "bar" []).2.2⟩

/-! ### C8 -/

theorem insert_contract_signatures_eq (fns : List (String × FunctionSemantics)) :
    insert_contract_signatures fns
      = (fns.filter fun p => strStartsWith p.2.signature "0x").map fun p =>
          { signature_hash := p.2.signature, name := p.2.name,
            args := signatureArgsOf p.2 } := by
  induction fns with
  | nil => rfl
  | cons p rest ih =>
    obtain ⟨k, v⟩ := p
    by_cases hp : strStartsWith v.signature "0x" = true
    · simp [insert_contract_signatures, hp, ih]
    · simp [insert_contract_signatures, hp, ih]

/-- C8: signature registration scans exactly the functions whose
signature is a genuine `0x` selector hash (synthetic identifiers are
skipped), in map order, and each registered signature's argument
descriptors come from the function's inputs — except that when the first
input parameter is a tuple, the nested components of that first input are
used as the argument list instead of the top-level parameters. -/
theorem contract_signature_registration_spec
    (fns : List (String × FunctionSemantics)) (v : FunctionSemantics)
    (q : ParameterSemantics) (qs : List ParameterSemantics)
    (sg nm : String) (outs : List ParameterSemantics)
    (hv : v.inputs = q :: qs) :
    insert_contract_signatures fns
      = (fns.filter fun p => strStartsWith p.2.signature "0x").map (fun p =>
          { signature_hash := p.2.signature, name := p.2.name,
            args := signatureArgsOf p.2 })
    ∧ signatureArgsOf v
      = (if q.parameter_type = "tuple"
         then q.components.map fun c => ⟨c.parameter_name, c.parameter_type⟩
         else (q :: qs).map fun c => ⟨c.parameter_name, c.parameter_type⟩)
    ∧ signatureArgsOf { signature := sg, name := nm, inputs := [], outputs := outs }
        = [] := by
  refine ⟨insert_contract_signatures_eq fns, ?_, rfl⟩
  by_cases hq : q.parameter_type = "tuple"
  · simp [signatureArgsOf, hv, hq]
  · simp [signatureArgsOf, hv, hq]

/-- First-input tuple parameter used by the C8 witness. -/
def tupleInput : ParameterSemantics :=
  .mk "box" "tuple" [.mk "x" "uint256" [] false false,
                     .mk "y" "address" [] false false] false false

/-- Selector-hash function whose first input is a tuple (C8 witness). -/
def wrappedFn : FunctionSemantics :=
  { signature := "0xaabbccdd", name := "wrapped", inputs := [tupleInput],
    outputs := [] }

/-- Function map mixing selector-hash entries and a synthetic
`constructor` entry (C8 witness). -/
def sampleFns : List (String × FunctionSemantics) :=
  [("0xaabbccdd", wrappedFn),
   ("constructor",
    { signature := "constructor", name := "constructor",
      inputs := [.mk "z" "uint256" [] false false], outputs := [] }),
   ("0x11223344",
    { signature := "0x11223344", name := "plain",
      inputs := [.mk "a" "uint256" [] false false], outputs := [] })]

/-- Closed witness for C8: only the two selector-hash entries are
registered, in order, and the tuple-first function's arguments are the
nested components of its first input. -/
theorem contract_signature_registration_spec_witness :
    insert_contract_signatures sampleFns
      = [{ signature_hash := "0xaabbccdd", name := "wrapped",
           args := [⟨"x", "uint256"⟩, ⟨"y", "address"⟩] },
         { signature_hash := "0x11223344", name := "plain",
           args := [⟨"a", "uint256"⟩] }]
    ∧ signatureArgsOf wrappedFn = [⟨"x", "uint256"⟩, ⟨"y", "address"⟩] :=
  ⟨(contract_signature_registration_spec sampleFns wrappedFn tupleInput []
      "0xff" "skip" [] rfl).1.trans (by rfl),
   ((contract_signature_registration_spec sampleFns wrappedFn tupleInput []
      "0xff" "skip" [] rfl).2.1).trans (by rfl)⟩

/-! ### C5 -/

/-- C5: whenever the resolved contract has a function entry keyed by the
literal name `"constructor"`, constructor lookup returns that entry with
the synthetic ignorable marker `__create_output__` appended — its outputs
list has exactly one more entry than the stored definition; when no such
entry exists, constructor lookup returns no result. -/
theorem constructor_lookup_spec (env : Env) (st : RepoState) (c a : String)
    (s : AddressSemantics) (f : FunctionSemantics)
    (h0 : a ≠ "") (hs : (get_semantics env st c a).1 = .ok (some s)) :
    (lookupA s.contract.functions "constructor" = some f →
      (get_constructor_abi env st c a).1
          = .ok (some { f with outputs := f.outputs ++ [createOutputMarker] })
      ∧ (f.outputs ++ [createOutputMarker]).length = f.outputs.length + 1)
    ∧ (lookupA s.contract.functions "constructor" = none →
      (get_constructor_abi env st c a).1 = .ok none) := by
  constructor
  · intro hf
    refine ⟨?_, by simp⟩
    simp [get_constructor_abi, h0, hs, hf, Except.map]
  · intro hf
    simp [get_constructor_abi, h0, hs, hf, Except.map]

/-- Environment resolving `0xaa` as a contract whose decoded interface
holds a `"constructor"` entry. -/
def envWithConstructor : Env :=
  { baseEnv with
    get_code_hash := fun _ _ => "0xc0de"
    get_contract_abi := fun _ _ => (some ⟨"rawabi", "MyContract"⟩, true)
    decode_abi := fun _ =>
      ([], [("constructor",
             { signature := "constructor", name := "constructor",
               inputs := [], outputs := [.mk "out0" "uint256" [] false false] })]) }

/-- Closed witness for C5: the present-constructor case (one appended
marker output) and, against `baseEnv`'s EOA record, the absent case. -/
theorem constructor_lookup_spec_witness :
    ((get_constructor_abi envWithConstructor initState "1" "0xaa").1
        = .ok (some
          { signature := "constructor", name := "constructor", inputs := [],
            outputs := [.mk "out0" "uint256" [] false false, createOutputMarker] })
      ∧ ([ParameterSemantics.mk "out0" "uint256" [] false false]
            ++ [createOutputMarker]).length
          = [ParameterSemantics.mk "out0" "uint256" [] false false].length + 1)
    ∧ (get_constructor_abi baseEnv initState "1" "0xaa").1 = .ok none :=
  ⟨(constructor_lookup_spec envWithConstructor initState "1" "0xaa"
      { chain_id := "1", address := "0xaa", name := "MyContract",
        is_contract := true,
        contract := { code_hash := "0xc0de", name := "MyContract", events := [],
                      functions := [("constructor",
                        { signature := "constructor", name := "constructor",
                          inputs := [],
                          outputs := [.mk "out0" "uint256" [] false false] })],
                      transformations := [] },
        standard := none, erc20 := none }
      { signature := "constructor", name := "constructor", inputs := [],
        outputs := [.mk "out0" "uint256" [] false false] }
      (by decide) (by rfl)).1 rfl,
   (constructor_lookup_spec baseEnv initState "1" "0xaa"
      { chain_id := "1", address := "0xaa", name := "0xaa",
        is_contract := false, contract := EOAContract }
      { signature := "x", name := "x", inputs := [], outputs := [] }
      (by decide) (by rfl)).2 rfl⟩

end EthTx
